import Mathlib

/-!
# Verification of the mite-mcp protocol session layer

A shallow embedding of the dual-transport MCP session layer of the
`mite-mcp` repository, covering:

* the input-coercion schemas of `src/utils/validation.ts`
  (`optionalNumber`, `requiredNumber`, `optionalBoolean`, `requiredBoolean`),
  together with a model of the zod combinators they rely on
  (`z.union`, `z.string().transform`, `.optional()`, `z.object`);
* the tool-call dispatcher installed by `setupServer` in `src/index.ts`
  (tool lookup, input validation, execution, response wrapping);
* the JSON pretty-printer used for response wrapping
  (`JSON.stringify(result, null, 2)`) and a JSON parser modelling
  `JSON.parse`, with a round-trip theorem;
* the HTTP request handler of `runHttpServer` in `src/index.ts`
  (CORS headers, OPTIONS short-circuit, path routing, and the
  POST session state machine).

Modelling granularity: JavaScript numbers are modelled as integers
(`Int`); fractional, hexadecimal and exponent literals are outside the
scope of the embedding and are mapped to "not a number".  Machine-level
concerns (event-loop interleaving, socket I/O) are abstracted away; the
handler is modelled as a function from a request and the session table
to the produced response action and the updated table.
-/

namespace MiteMcp

/-- JSON values, the results produced by tool `execute` functions
(`JSON-serializable result` in the spec data model). -/
inductive Json where
  | null
  | bool (b : Bool)
  | num (n : Int)
  | str (s : String)
  | arr (items : List Json)
  | obj (fields : List (String × Json))

/-- JavaScript values crossing the zod schema boundary: JSON values
plus `undefined` (a transform may return `undefined`, and `.optional()`
accepts it). -/
inductive JsVal where
  | undef
  | null
  | bool (b : Bool)
  | num (n : Int)
  | str (s : String)
  | arr (items : List JsVal)
  | obj (fields : List (String × JsVal))

/-! ## Decimal digits

Printing a natural number in decimal, fuel-based so that it evaluates
by kernel reduction, together with the read-back fold used by the
number parser. -/

/-- One step of reading a decimal number: previous value times ten plus
the value of the next digit character. -/
def digitStep (a : Nat) (c : Char) : Nat := 10 * a + (c.toNat - 48)

/-- Decimal digits of `n`, most significant first, prepended to `acc`;
`fuel` bounds the number of divisions by ten. -/
def natCharsAux : Nat → Nat → List Char → List Char
  | 0, _, acc => acc
  | _ + 1, 0, acc => acc
  | fuel + 1, n, acc => natCharsAux fuel (n / 10) (Nat.digitChar (n % 10) :: acc)

/-- Decimal representation of a natural number, as `Number.prototype.toString`
produces it for a nonnegative integer. -/
def natChars (n : Nat) : List Char := if n = 0 then ['0'] else natCharsAux (n + 1) n []

/-- Decimal representation of an integer (minus sign for negatives), as
`Number.prototype.toString` produces it for an integer. -/
def intChars (n : Int) : List Char :=
  if n < 0 then '-' :: natChars n.natAbs else natChars n.toNat

/-! ## String escaping

The escaping performed by `JSON.stringify` on string values: `"` and `\`
get a backslash escape, the common control characters get their short
escapes, the remaining control characters (code points below 32) are
written as `\u00XX`, and every other character is emitted verbatim. -/

/-- `JSON.stringify` escape sequence of one character. -/
def escapeChar (c : Char) : List Char :=
  if c = '"' then ['\\', '"']
  else if c = '\\' then ['\\', '\\']
  else if c = '\n' then ['\\', 'n']
  else if c = '\r' then ['\\', 'r']
  else if c = '\t' then ['\\', 't']
  else if c = '\x08' then ['\\', 'b']
  else if c = '\x0c' then ['\\', 'f']
  else if c.toNat < 32 then
    ['\\', 'u', '0', '0', Nat.digitChar (c.toNat / 16), Nat.digitChar (c.toNat % 16)]
  else [c]

/-- `JSON.stringify` escaping of the characters of a string body. -/
def escapeList : List Char → List Char
  | [] => []
  | c :: cs => escapeChar c ++ escapeList cs

/-- A string value as `JSON.stringify` renders it: quoted and escaped. -/
def quoteChars (s : String) : List Char := '"' :: (escapeList s.data ++ ['"'])

/-! ## The pretty printer

`JSON.stringify(v, null, 2)` as called by the dispatcher when wrapping a
tool result: two-space indentation, one element or member per line. -/

/-- The indentation in front of an element nested at depth `d`. -/
def indentChars (d : Nat) : List Char := List.replicate (2 * d) ' '

mutual

/-- Characters of `JSON.stringify(v, null, 2)` for a value at nesting
depth `d`. -/
def printVal : Json → Nat → List Char
  | .null, _ => ['n', 'u', 'l', 'l']
  | .bool true, _ => ['t', 'r', 'u', 'e']
  | .bool false, _ => ['f', 'a', 'l', 's', 'e']
  | .num n, _ => intChars n
  | .str s, _ => quoteChars s
  | .arr [], _ => ['[', ']']
  | .arr (v :: vs), d =>
      '[' :: '\n' :: (indentChars (d + 1) ++ printVal v (d + 1) ++ printItems vs (d + 1)
        ++ '\n' :: (indentChars d ++ [']']))
  | .obj [], _ => ['\x7b', '\x7d']
  | .obj (m :: ms), d =>
      '\x7b' :: '\n' :: (indentChars (d + 1) ++ printMember m (d + 1) ++ printMembers ms (d + 1)
        ++ '\n' :: (indentChars d ++ ['\x7d']))

/-- The remaining elements of a nonempty array, each preceded by a comma,
a newline and indentation. -/
def printItems : List Json → Nat → List Char
  | [], _ => []
  | v :: vs, d => ',' :: '\n' :: (indentChars d ++ printVal v d ++ printItems vs d)

/-- One object member: quoted key, colon, space, value. -/
def printMember : String × Json → Nat → List Char
  | (k, v), d => quoteChars k ++ ':' :: ' ' :: printVal v d

/-- The remaining members of a nonempty object. -/
def printMembers : List (String × Json) → Nat → List Char
  | [], _ => []
  | m :: ms, d => ',' :: '\n' :: (indentChars d ++ printMember m d ++ printMembers ms d)

end

/-- `JSON.stringify(v, null, 2)`: the pretty-printed serialization used
by the dispatcher response wrapping at `src/index.ts:82`. -/
def stringify (v : Json) : String := String.mk (printVal v 0)

/-! ## The JSON parser

A model of `JSON.parse`, used to state the serialization round trip:
recursive descent over the character list, with a fuel argument
bounding the nesting depth (the entry point supplies the input length,
which always suffices).  Within the integer granularity of the
embedding, number literals are optionally signed digit runs. -/

/-- JSON insignificant whitespace. -/
def isWsChar (c : Char) : Bool := c = ' ' || c = '\n' || c = '\t' || c = '\r'

/-- Skip insignificant whitespace. -/
def skipWs : List Char → List Char
  | [] => []
  | c :: cs => if isWsChar c then skipWs cs else c :: cs

/-- Match an expected literal character sequence, returning the rest. -/
def matchLit : List Char → List Char → Option (List Char)
  | [], cs => some cs
  | _ :: _, [] => none
  | l :: ls, c :: cs => if c = l then matchLit ls cs else none

/-- Value of a hexadecimal digit character (both cases). -/
def hexVal (c : Char) : Option Nat :=
  if 48 ≤ c.toNat ∧ c.toNat ≤ 57 then some (c.toNat - 48)
  else if 97 ≤ c.toNat ∧ c.toNat ≤ 102 then some (c.toNat - 87)
  else if 65 ≤ c.toNat ∧ c.toNat ≤ 70 then some (c.toNat - 55)
  else none

/-- Parse the body of a string literal after the opening quote, up to
and including the closing quote; handles the escape sequences and
rejects raw control characters, like `JSON.parse`.  (A `\u` escape
denoting a lone surrogate is not representable as a scalar value and is
rejected.) -/
def parseStrBody : List Char → Option (List Char × List Char)
  | [] => none
  | c :: cs =>
    if c = '"' then some ([], cs)
    else if c = '\\' then
      match cs with
      | [] => none
      | e :: cs2 =>
        if e = '"' then (parseStrBody cs2).map (fun p => ('"' :: p.1, p.2))
        else if e = '\\' then (parseStrBody cs2).map (fun p => ('\\' :: p.1, p.2))
        else if e = '/' then (parseStrBody cs2).map (fun p => ('/' :: p.1, p.2))
        else if e = 'n' then (parseStrBody cs2).map (fun p => ('\n' :: p.1, p.2))
        else if e = 't' then (parseStrBody cs2).map (fun p => ('\t' :: p.1, p.2))
        else if e = 'r' then (parseStrBody cs2).map (fun p => ('\r' :: p.1, p.2))
        else if e = 'b' then (parseStrBody cs2).map (fun p => ('\x08' :: p.1, p.2))
        else if e = 'f' then (parseStrBody cs2).map (fun p => ('\x0c' :: p.1, p.2))
        else if e = 'u' then
          match cs2 with
          | h1 :: h2 :: h3 :: h4 :: cs3 =>
            match hexVal h1, hexVal h2, hexVal h3, hexVal h4 with
            | some a, some b, some x, some y =>
              let code := 4096 * a + 256 * b + 16 * x + y
              if code.isValidChar then
                (parseStrBody cs3).map (fun p => (Char.ofNat code :: p.1, p.2))
              else none
            | _, _, _, _ => none
          | _ => none
        else none
    else if c.toNat < 32 then none
    else (parseStrBody cs).map (fun p => (c :: p.1, p.2))

/-- Value of a nonempty run of decimal digit characters. -/
def digitsVal (cs : List Char) : Nat := cs.foldl digitStep 0

/-- Parse a nonempty run of decimal digits. -/
def parseNatChars (cs : List Char) : Option (Nat × List Char) :=
  let ds := cs.takeWhile Char.isDigit
  if ds.isEmpty then none
  else some (digitsVal ds, cs.dropWhile Char.isDigit)

mutual

/-- Parse one JSON value, skipping leading whitespace. -/
def parseVal : Nat → List Char → Option (Json × List Char)
  | 0, _ => none
  | fuel + 1, cs =>
    match skipWs cs with
    | [] => none
    | c :: rest =>
      if c = 'n' then (matchLit ['u', 'l', 'l'] rest).map (fun r => (Json.null, r))
      else if c = 't' then (matchLit ['r', 'u', 'e'] rest).map (fun r => (Json.bool true, r))
      else if c = 'f' then (matchLit ['a', 'l', 's', 'e'] rest).map (fun r => (Json.bool false, r))
      else if c = '"' then (parseStrBody rest).map (fun p => (Json.str (String.mk p.1), p.2))
      else if c = '[' then
        if (skipWs rest).head? = some ']' then some (Json.arr [], (skipWs rest).tail)
        else (parseItems1 fuel (skipWs rest)).map (fun p => (Json.arr p.1, p.2))
      else if c = '\x7b' then
        if (skipWs rest).head? = some '\x7d' then some (Json.obj [], (skipWs rest).tail)
        else (parseMembers1 fuel (skipWs rest)).map (fun p => (Json.obj p.1, p.2))
      else if c = '-' then (parseNatChars rest).map (fun p => (Json.num (-(p.1 : Int)), p.2))
      else if c.isDigit then (parseNatChars (c :: rest)).map (fun p => (Json.num (p.1 : Int), p.2))
      else none

/-- Parse the elements of a nonempty array, up to and including the
closing bracket. -/
def parseItems1 : Nat → List Char → Option (List Json × List Char)
  | 0, _ => none
  | fuel + 1, cs =>
    match parseVal fuel cs with
    | none => none
    | some (v, r1) =>
      if (skipWs r1).head? = some ',' then
        match parseItems1 fuel (skipWs r1).tail with
        | some (vs, r3) => some (v :: vs, r3)
        | none => none
      else if (skipWs r1).head? = some ']' then some ([v], (skipWs r1).tail)
      else none

/-- Parse the members of a nonempty object, up to and including the
closing brace. -/
def parseMembers1 : Nat → List Char → Option (List (String × Json) × List Char)
  | 0, _ => none
  | fuel + 1, cs =>
    match skipWs cs with
    | [] => none
    | c :: cs2 =>
      if c = '"' then
        match parseStrBody cs2 with
        | none => none
        | some (k, r1) =>
          if (skipWs r1).head? = some ':' then
            match parseVal fuel (skipWs r1).tail with
            | none => none
            | some (v, r3) =>
              if (skipWs r3).head? = some ',' then
                match parseMembers1 fuel (skipWs r3).tail with
                | some (ms, r5) => some ((String.mk k, v) :: ms, r5)
                | none => none
              else if (skipWs r3).head? = some '\x7d' then
                some ([(String.mk k, v)], (skipWs r3).tail)
              else none
          else none
      else none

end

/-- `JSON.parse`: parse a complete document, requiring that only
whitespace remains.  The input length bounds the nesting depth, so it
serves as fuel. -/
def jsonParse (s : String) : Option Json :=
  match parseVal (s.length + 1) s.data with
  | some (v, rest) => if (skipWs rest).isEmpty then some v else none
  | none => none

/-! ### Fuel needed by the parser on printed output -/

mutual

/-- Nesting fuel sufficient to parse the printed form of a value. -/
def fuelVal : Json → Nat
  | .arr items => fuelItems items + 1
  | .obj fields => fuelMembers fields + 1
  | _ => 1

/-- Fuel sufficient for the element list of an array. -/
def fuelItems : List Json → Nat
  | [] => 1
  | v :: vs => fuelVal v + fuelItems vs + 1

/-- Fuel sufficient for the member list of an object. -/
def fuelMembers : List (String × Json) → Nat
  | [] => 1
  | m :: ms => fuelVal m.2 + fuelMembers ms + 1

end

/-- All characters are insignificant whitespace. -/
def allWs (cs : List Char) : Bool := cs.all isWsChar

/-- The head, if any, is not a decimal digit (so that a preceding
number literal cannot absorb it). -/
def headNotDigit : List Char → Bool
  | [] => true
  | c :: _ => !c.isDigit

/-- Guard for parsing a printed value followed by `rest`: a number must
not be followed immediately by a digit. -/
def numOk : Json → List Char → Bool
  | .num _, rest => headNotDigit rest
  | _, _ => true

/-! ## The JavaScript `Number` conversion

`Number(val)` as used by the coercion transforms in
`src/utils/validation.ts`: leading and trailing whitespace is ignored,
the empty remainder is zero, an optionally signed run of decimal digits
is its value, and anything else is `NaN` (returned here as `none`;
fractional, hexadecimal and exponent literals are outside the integer
granularity of the embedding and also map to `none`). -/

/-- Whitespace ignored by `Number(string)`. -/
def jsWs (c : Char) : Bool :=
  c = ' ' || c = '\t' || c = '\n' || c = '\r' || c = '\x0b' || c = '\x0c' || c = '\xa0'

/-- The JavaScript `Number(string)` conversion, restricted to integer
literals; `none` models `NaN`. -/
def jsNumberOfString (s : String) : Option Int :=
  let t := ((s.data.dropWhile jsWs).reverse.dropWhile jsWs).reverse
  match t with
  | [] => some 0
  | '-' :: ds => if ds ≠ [] ∧ ds.all Char.isDigit then some (-(digitsVal ds : Int)) else none
  | '+' :: ds => if ds ≠ [] ∧ ds.all Char.isDigit then some (digitsVal ds : Int) else none
  | ds => if ds.all Char.isDigit then some (digitsVal ds : Int) else none

/-! ## The zod schema model

The coercion schemas of `src/utils/validation.ts` are built from
`z.union`, `z.number()`, `z.boolean()`, `z.string().transform(...)` and
`.optional()`.  A schema application has three possible outcomes,
mirroring zod's behaviour: a parsed value, a `ZodError` carrying issue
messages, or a raw JavaScript exception thrown inside a `.transform`
callback (zod does not catch those; they escape `parse` as-is). -/

/-- Outcome of applying a zod schema to a value. -/
inductive ParseOut where
  | ok (v : JsVal)
  | zodErr (msgs : List String)
  | thrown (msg : String)

/-- A zod schema, as the dispatcher consumes it: a validate-and-coerce
function. -/
def Schema := JsVal → ParseOut

/-- The type name zod reports in `invalid_type` issues. -/
def jsTypeName : JsVal → String
  | .undef => "undefined"
  | .null => "null"
  | .bool _ => "boolean"
  | .num _ => "number"
  | .str _ => "string"
  | .arr _ => "array"
  | .obj _ => "object"

/-- `z.number()`. -/
def zNumber : Schema := fun v =>
  match v with
  | .num n => .ok (.num n)
  | w => .zodErr ["Expected number, received " ++ jsTypeName w]

/-- `z.boolean()`. -/
def zBoolean : Schema := fun v =>
  match v with
  | .bool b => .ok (.bool b)
  | w => .zodErr ["Expected boolean, received " ++ jsTypeName w]

/-- `z.string().transform(f)` where `f` may throw: on a string input the
callback runs, and a throw inside it escapes as a raw exception. -/
def zStringTransform (f : String → Except String JsVal) : Schema := fun v =>
  match v with
  | .str s =>
      match f s with
      | .ok w => .ok w
      | .error m => .thrown m
  | w => .zodErr ["Expected string, received " ++ jsTypeName w]

/-- `z.string()`. -/
def zString : Schema := fun v =>
  match v with
  | .str s => .ok (.str s)
  | w => .zodErr ["Expected string, received " ++ jsTypeName w]

/-- `z.union([s1, s2])`: the options are tried in order; a success wins,
a throw inside an option propagates, and if both options fail with
`ZodError` the union reports its single `invalid_union` issue, whose
message is `Invalid input`. -/
def zUnion2 (s1 s2 : Schema) : Schema := fun v =>
  match s1 v with
  | .ok w => .ok w
  | .thrown m => .thrown m
  | .zodErr _ =>
      match s2 v with
      | .ok w => .ok w
      | .thrown m => .thrown m
      | .zodErr _ => .zodErr ["Invalid input"]

/-- `.optional()`: `undefined` passes through, everything else is parsed
by the wrapped schema. -/
def zOptional (s : Schema) : Schema := fun v =>
  match v with
  | .undef => .ok .undef
  | w => s w

/-- The transform callback of `optionalNumber`
(`src/utils/validation.ts:9-14`): the empty string becomes `undefined`;
otherwise `Number(val)` is taken and `NaN` raises
`Invalid number: "<val>"`.  (The callback receives the output of
`z.string()`, so its `null`/`undefined` checks cannot fire.) -/
def optionalNumberTransform (s : String) : Except String JsVal :=
  if s = "" then .ok .undef
  else
    match jsNumberOfString s with
    | some n => .ok (.num n)
    | none => .error ("Invalid number: \"" ++ s ++ "\"")

/-- The transform callback of `requiredNumber`
(`src/utils/validation.ts:23-27`): `Number(val)`, with `NaN` raising
`Invalid number: "<val>"`. -/
def requiredNumberTransform (s : String) : Except String JsVal :=
  match jsNumberOfString s with
  | some n => .ok (.num n)
  | none => .error ("Invalid number: \"" ++ s ++ "\"")

/-- The transform callback of `optionalBoolean`
(`src/utils/validation.ts:36-41`). -/
def optionalBooleanTransform (s : String) : Except String JsVal :=
  if s = "" then .ok .undef
  else if s = "true" || s = "1" then .ok (.bool true)
  else if s = "false" || s = "0" then .ok (.bool false)
  else .error ("Invalid boolean: \"" ++ s ++ "\"")

/-- The transform callback of `requiredBoolean`
(`src/utils/validation.ts:50-54`). -/
def requiredBooleanTransform (s : String) : Except String JsVal :=
  if s = "true" || s = "1" then .ok (.bool true)
  else if s = "false" || s = "0" then .ok (.bool false)
  else .error ("Invalid boolean: \"" ++ s ++ "\"")

/-- `optionalNumber` (`src/utils/validation.ts:6-16`). -/
def optionalNumber : Schema := zOptional (zUnion2 zNumber (zStringTransform optionalNumberTransform))

/-- `requiredNumber` (`src/utils/validation.ts:21-28`). -/
def requiredNumber : Schema := zUnion2 zNumber (zStringTransform requiredNumberTransform)

/-- `optionalBoolean` (`src/utils/validation.ts:33-43`). -/
def optionalBoolean : Schema :=
  zOptional (zUnion2 zBoolean (zStringTransform optionalBooleanTransform))

/-- `requiredBoolean` (`src/utils/validation.ts:48-55`). -/
def requiredBoolean : Schema := zUnion2 zBoolean (zStringTransform requiredBooleanTransform)

/-! ## `z.object`

The tools' input schemas (`src/tools/*.ts`) are `z.object({...})`
shapes whose fields use the coercion schemas above.  zod parses the
declared keys in order: a raw exception thrown inside a field's
transform propagates immediately, `ZodError` issues of failing fields
are collected into one error, unknown keys are stripped, and a declared
key whose parsed value is `undefined` and which is absent from the
input is omitted from the result. -/

/-- Last-binding lookup: a JavaScript object built from JSON keeps the
last occurrence of a duplicated key. -/
def lookupField (props : List (String × JsVal)) (k : String) : Option JsVal :=
  props.reverse.lookup k

/-- Outcome of parsing the declared fields of an object shape. -/
inductive FieldsOut where
  | ok (fields : List (String × JsVal))
  | zodErr (msgs : List String)
  | thrown (msg : String)

/-- Parse the declared fields of a `z.object` shape against the
properties of the input object. -/
def zObjectFields : List (String × Schema) → List (String × JsVal) → FieldsOut
  | [], _ => .ok []
  | (k, sch) :: rest, props =>
      let raw := (lookupField props k).getD .undef
      match sch raw with
      | .thrown m => .thrown m
      | .zodErr ms =>
          match zObjectFields rest props with
          | .thrown m => .thrown m
          | .zodErr more => .zodErr (ms ++ more)
          | .ok _ => .zodErr ms
      | .ok w =>
          match zObjectFields rest props with
          | .thrown m => .thrown m
          | .zodErr more => .zodErr more
          | .ok ws =>
              match w, lookupField props k with
              | .undef, none => .ok ws
              | _, _ => .ok ((k, w) :: ws)

/-- `z.object({...})`. -/
def zObject (shape : List (String × Schema)) : Schema := fun v =>
  match v with
  | .obj props =>
      match zObjectFields shape props with
      | .ok ws => .ok (.obj ws)
      | .zodErr ms => .zodErr ms
      | .thrown m => .thrown m
  | .undef => .zodErr ["Required"]
  | w => .zodErr ["Expected object, received " ++ jsTypeName w]

/-! ## The tool registry and the call-tool dispatcher

`setupServer` (`src/index.ts:25-92`) merges the tool sets into one map
keyed by tool name and installs the `CallToolRequestSchema` handler. -/

/-- A tool descriptor: name, description, input contract, execute
function.  `execute` produces a JSON-serializable result or throws. -/
structure Tool where
  name : String
  description : String
  inputSchema : Schema
  execute : JsVal → Except String Json

/-- Lookup in the name-keyed tool map built at `src/index.ts:53-56`. -/
def toolsByName (tools : List Tool) (name : String) : Option Tool :=
  tools.find? (fun t => t.name == name)

/-- One content block of an MCP tool-call response. -/
structure ContentBlock where
  type : String
  text : String

/-- Result of the call-tool handler: a successful response envelope or
a thrown error, by message. -/
inductive Outcome where
  | success (content : List ContentBlock)
  | failure (msg : String)

/-- The call-tool handler's observable behaviour: its outcome, whether
input validation ran, and whether the tool's `execute` ran. -/
structure CallTrace where
  outcome : Outcome
  validated : Bool
  executed : Bool

/-- JavaScript truthiness of a value, as used by `args || {}`. -/
def jsFalsy : JsVal → Bool
  | .undef => true
  | .null => true
  | .bool b => !b
  | .num n => n == 0
  | .str s => s == ""
  | _ => false

/-- The `CallToolRequestSchema` handler (`src/index.ts:70-89`): resolve
the tool by name or throw `Tool <name> not found`; validate
`args || {}` against its input schema; on a `ZodError` throw
`Invalid input: <joined messages>`, on any other exception rethrow it;
otherwise execute and wrap the result in a single pretty-printed text
content block. -/
def callTool (tools : List Tool) (name : String) (args : JsVal) : CallTrace :=
  match toolsByName tools name with
  | none => ⟨.failure ("Tool " ++ name ++ " not found"), false, false⟩
  | some tool =>
      match tool.inputSchema (if jsFalsy args then JsVal.obj [] else args) with
      | .ok v =>
          match tool.execute v with
          | .ok r => ⟨.success [⟨"text", stringify r⟩], true, true⟩
          | .error e => ⟨.failure e, true, true⟩
      | .zodErr msgs => ⟨.failure ("Invalid input: " ++ String.intercalate ", " msgs), true, false⟩
      | .thrown m => ⟨.failure m, true, false⟩

/-! ## The HTTP request handler

`runHttpServer` (`src/index.ts:101-263`) keeps an in-memory session
table (`transports`, keyed by session id) and installs one request
handler.  The handler is modelled as a function of the request, the
current set of session ids and the id a fresh session would receive
(`randomUUID()` made explicit), returning the action taken and the
updated table.  Responses delegated to a session's transport object are
represented by the `reuseSession`/`newSession` actions together with
the response headers set before delegation. -/

/-- An incoming HTTP request, as the handler inspects it: the URL
pathname (`none` when `req.url` is absent), the method, the
`mcp-session-id` header, and for POST the JSON-parsed body (`none`
models a body `JSON.parse` rejects). -/
structure HttpRequest where
  url : Option String
  method : String
  sessionId : Option String
  body : Option Json

/-- The action the request handler takes. -/
inductive HandlerAction where
  | direct (status : Nat) (headers : List (String × String)) (body : String)
  | reuseSession (sid : String) (headers : List (String × String))
  | newSession (sid : String) (headers : List (String × String))

/-- Response headers of an action. -/
def HandlerAction.headers : HandlerAction → List (String × String)
  | .direct _ hs _ => hs
  | .reuseSession _ hs => hs
  | .newSession _ hs => hs

/-- The CORS headers set at `src/index.ts:115-117`. -/
def corsHeaders : List (String × String) :=
  [("Access-Control-Allow-Origin", "*"),
   ("Access-Control-Allow-Methods", "GET, POST, OPTIONS, DELETE"),
   ("Access-Control-Allow-Headers", "Content-Type, Authorization, Mcp-Session-Id")]

/-- The `Content-Type: application/json` header. -/
def ctJson : String × String := ("Content-Type", "application/json")

/-- The `Content-Type: text/plain` header. -/
def ctText : String × String := ("Content-Type", "text/plain")

/-- Body of the 400 state-machine rejection (`src/index.ts:181-190`):
`JSON.stringify` of the literal error envelope. -/
def noSessionBody : String :=
  "\x7b\"jsonrpc\":\"2.0\",\"error\":\x7b\"code\":-32000,\"message\":\"Bad Request: No valid session ID provided\"\x7d,\"id\":null\x7d"

/-- Body of the 500 internal-error envelope (`src/index.ts:199-209`). -/
def internalErrorBody : String :=
  "\x7b\"jsonrpc\":\"2.0\",\"error\":\x7b\"code\":-32603,\"message\":\"Internal server error\"\x7d,\"id\":null\x7d"

/-- `parsedBody.method === 'initialize'` for a parsed JSON body: only an
object can carry the property, and a duplicated key keeps its last
occurrence. -/
def bodyMethodIsInit (b : Json) : Bool :=
  match b with
  | .obj fields =>
      match fields.reverse.lookup "method" with
      | some (.str s) => s == "initialize"
      | _ => false
  | _ => false

/-- The POST branch of the request handler (`src/index.ts:126-212`),
after the body has been buffered.  `sessionId && transports.has(...)`
reuses the session; otherwise `!sessionId && parsedBody.method ===
'initialize'` creates one (the property access throws on a `null` body,
which the surrounding `catch` answers with the 500 envelope); every
other case is the 400 no-session rejection.  An unparsable body is also
answered by the 500 envelope. -/
def handlePost (table : List String) (freshSid : String) (sessionId : Option String)
    (body : Option Json) : HandlerAction × List String :=
  match body with
  | none => (.direct 500 (corsHeaders ++ [ctJson]) internalErrorBody, table)
  | some parsedBody =>
      let truthySid : Bool := match sessionId with
        | some s => s != ""
        | none => false
      let sid := sessionId.getD ""
      if truthySid && table.contains sid then
        (.reuseSession sid corsHeaders, table)
      else if truthySid then
        -- `!sessionId` is false, so `!sessionId && parsedBody.method === ...`
        -- short-circuits without touching `parsedBody`.
        (.direct 400 (corsHeaders ++ [ctJson]) noSessionBody, table)
      else
        match parsedBody with
        | .null =>
            -- `parsedBody.method` throws a TypeError on `null`; the
            -- catch block answers with the internal-error envelope.
            (.direct 500 (corsHeaders ++ [ctJson]) internalErrorBody, table)
        | pb =>
            if bodyMethodIsInit pb then
              (.newSession freshSid corsHeaders, freshSid :: table)
            else
              (.direct 400 (corsHeaders ++ [ctJson]) noSessionBody, table)

/-- The GET/DELETE session check (`src/index.ts:213-246`): both require
a known session id and otherwise answer 400
`Invalid or missing session ID`. -/
def handleSessionBound (table : List String) (sessionId : Option String) :
    HandlerAction × List String :=
  match sessionId with
  | none => (.direct 400 (corsHeaders ++ [ctText]) "Invalid or missing session ID", table)
  | some s =>
      if s = "" then (.direct 400 (corsHeaders ++ [ctText]) "Invalid or missing session ID", table)
      else if table.contains s then (.reuseSession s corsHeaders, table)
      else (.direct 400 (corsHeaders ++ [ctText]) "Invalid or missing session ID", table)

/-- The HTTP request handler (`src/index.ts:105-255`): a request with no
URL is answered 400 before any header is set; then the CORS headers are
set, OPTIONS short-circuits with 200, paths other than `/` and `/mcp`
are answered 404, and POST/GET/DELETE are dispatched on the recognized
paths (any other method: 405). -/
def handleHttpRequest (table : List String) (freshSid : String) (req : HttpRequest) :
    HandlerAction × List String :=
  match req.url with
  | none => (.direct 400 [ctText] "Bad Request", table)
  | some path =>
      if req.method = "OPTIONS" then (.direct 200 corsHeaders "", table)
      else if path = "/" ∨ path = "/mcp" then
        if req.method = "POST" then handlePost table freshSid req.sessionId req.body
        else if req.method = "GET" then handleSessionBound table req.sessionId
        else if req.method = "DELETE" then handleSessionBound table req.sessionId
        else (.direct 405 (corsHeaders ++ [ctText]) "Method Not Allowed", table)
      else (.direct 404 (corsHeaders ++ [ctText]) "Not Found", table)

/-! ## Sample tools

Concrete tool descriptors shaped like the ones the resource modules
register, used to exercise the dispatcher on concrete inputs.  The
external mite API collaborator behind `execute` is stubbed with fixed
responses, as the spec treats it as out of scope. -/

/-- `get_customer` of `src/tools/customers.ts`: input schema
`z.object({ id: requiredNumber })`. -/
def sampleGetCustomer : Tool where
  name := "get_customer"
  description := "Get a specific customer by ID"
  inputSchema := zObject [("id", requiredNumber)]
  execute := fun _ => .ok (.obj [("customer", .obj [("id", .num 7), ("name", .str "ACME")])])

/-- `list_customers` of `src/tools/customers.ts`: input schema
`z.object({ name: z.string().optional(), limit: optionalNumber,
page: optionalNumber, archived: optionalBoolean })`. -/
def sampleListCustomers : Tool where
  name := "list_customers"
  description := "List active or archived customers"
  inputSchema := zObject
    [("name", zOptional zString), ("limit", optionalNumber),
     ("page", optionalNumber), ("archived", optionalBoolean)]
  execute := fun _ => .ok (.arr [.obj [("id", .num 1), ("name", .str "Customer 1")]])

/-- The three CORS headers are all present in `hs`. -/
def corsOk (hs : List (String × String)) : Prop := ∀ p ∈ corsHeaders, p ∈ hs

/-! ## Decimal digit lemmas -/

theorem natCharsAux_acc (fuel n : Nat) (acc : List Char) :
    natCharsAux fuel n acc = natCharsAux fuel n [] ++ acc := by
  induction fuel generalizing n acc with
  | zero => simp [natCharsAux]
  | succ fuel ih =>
    match n with
    | 0 => simp [natCharsAux]
    | m + 1 =>
      rw [natCharsAux, natCharsAux, ih, ih ((m + 1) / 10) [Nat.digitChar ((m + 1) % 10)]]
      · simp
      all_goals omega

theorem natCharsAux_fuel (f1 f2 n : Nat) (h1 : n < f1) (h2 : n < f2) :
    natCharsAux f1 n [] = natCharsAux f2 n [] := by
  induction n using Nat.strongRecOn generalizing f1 f2 with
  | _ n ih =>
    match f1, f2 with
    | g1 + 1, g2 + 1 =>
      match n with
      | 0 => simp [natCharsAux]
      | m + 1 =>
        rw [natCharsAux, natCharsAux,
          natCharsAux_acc g1, natCharsAux_acc g2,
          ih ((m + 1) / 10) (by omega) g1 g2 (by omega) (by omega)]
        all_goals omega

theorem digitChar_toNat {d : Nat} (h : d < 10) : (Nat.digitChar d).toNat = 48 + d := by
  interval_cases d <;> decide

theorem digitChar_isDigit {d : Nat} (h : d < 10) : (Nat.digitChar d).isDigit = true := by
  interval_cases d <;> decide

theorem natCharsAux_readBack (n : Nat) :
    (natCharsAux (n + 1) n []).foldl digitStep 0 = n := by
  induction n using Nat.strongRecOn with
  | _ n ih =>
    match n with
    | 0 => simp [natCharsAux]
    | m + 1 =>
      rw [natCharsAux, natCharsAux_acc, List.foldl_append,
        natCharsAux_fuel (m + 1) ((m + 1) / 10 + 1) ((m + 1) / 10) (by omega) (by omega),
        ih ((m + 1) / 10) (by omega)]
      · simp only [List.foldl, digitStep, digitChar_toNat (Nat.mod_lt (m + 1) (by omega))]
        omega
      all_goals omega

theorem natCharsAux_digits (fuel n : Nat) :
    ∀ c ∈ natCharsAux fuel n [], c.isDigit = true := by
  induction fuel generalizing n with
  | zero => simp [natCharsAux]
  | succ fuel ih =>
    match n with
    | 0 => simp [natCharsAux]
    | m + 1 =>
      rw [natCharsAux, natCharsAux_acc]
      case x_3 => omega
      intro c hc
      rcases List.mem_append.mp hc with hl | hr
      · exact ih _ c hl
      · simp only [List.mem_singleton] at hr
        subst hr
        exact digitChar_isDigit (Nat.mod_lt (m + 1) (by omega))

theorem natChars_digits (n : Nat) : ∀ c ∈ natChars n, c.isDigit = true := by
  unfold natChars
  split
  · simp
  · exact natCharsAux_digits (n + 1) n

theorem natChars_readBack (n : Nat) : (natChars n).foldl digitStep 0 = n := by
  unfold natChars
  split
  · simp [digitStep]
    omega
  · exact natCharsAux_readBack n

theorem natChars_ne_nil (n : Nat) : natChars n ≠ [] := by
  unfold natChars
  split
  · simp
  · match h : natCharsAux (n + 1) n [] with
    | _ :: _ => simp
    | [] =>
      exfalso
      have := natCharsAux_readBack n
      rw [h] at this
      simp [List.foldl] at this
      omega

/-! ## Round-trip support lemmas -/

theorem skipWs_not_ws {c : Char} {cs : List Char} (h : isWsChar c = false) :
    skipWs (c :: cs) = c :: cs := by
  simp [skipWs, h]

theorem skipWs_ws_cons {c : Char} {cs : List Char} (h : isWsChar c = true) :
    skipWs (c :: cs) = skipWs cs := by
  simp [skipWs, h]

theorem skipWs_append_ws (pre cs : List Char) (h : allWs pre = true) :
    skipWs (pre ++ cs) = skipWs cs := by
  induction pre with
  | nil => rfl
  | cons p ps ih =>
    simp only [allWs, List.all_cons, Bool.and_eq_true] at h
    rw [List.cons_append, skipWs_ws_cons h.1, ih (by simp [allWs, h.2])]

theorem allWs_indent (d : Nat) : allWs (indentChars d) = true := by
  rw [allWs, List.all_eq_true]
  intro c hc
  have hce : c = ' ' := List.eq_of_mem_replicate (by simpa [indentChars] using hc)
  subst hce
  rfl

theorem skipWs_indent (d : Nat) (cs : List Char) :
    skipWs (indentChars d ++ cs) = skipWs cs :=
  skipWs_append_ws _ _ (allWs_indent d)

theorem digit_ne {c : Char} (h : c.isDigit = true) (x : Char) (hx : x.isDigit = false) :
    c ≠ x := by
  intro e
  subst e
  rw [h] at hx
  cases hx

theorem digit_not_ws {c : Char} (h : c.isDigit = true) : isWsChar c = false := by
  cases hw : isWsChar c
  · rfl
  · exfalso
    simp [isWsChar] at hw
    rcases hw with ((rfl | rfl) | rfl) | rfl <;> exact absurd h (by decide)

theorem matchLit_append (ls rest : List Char) : matchLit ls (ls ++ rest) = some rest := by
  induction ls with
  | nil => rfl
  | cons l ls ih => simp [matchLit, ih]

theorem takeWhile_append_not (p : Char → Bool) (xs ys : List Char)
    (hall : ∀ c ∈ xs, p c = true) (hhd : ∀ c, ys.head? = some c → p c = false) :
    (xs ++ ys).takeWhile p = xs := by
  induction xs with
  | nil =>
    match ys with
    | [] => rfl
    | c :: ys2 => simp [List.takeWhile, hhd c rfl]
  | cons x xs ih =>
    have hx := hall x (by simp)
    simp [List.takeWhile, hx]
    exact ih fun c hc => hall c (by simp [hc])

theorem dropWhile_append_not (p : Char → Bool) (xs ys : List Char)
    (hall : ∀ c ∈ xs, p c = true) (hhd : ∀ c, ys.head? = some c → p c = false) :
    (xs ++ ys).dropWhile p = ys := by
  induction xs with
  | nil =>
    match ys with
    | [] => rfl
    | c :: ys2 => simp [List.dropWhile, hhd c rfl]
  | cons x xs ih =>
    have hx := hall x (by simp)
    simp [List.dropWhile, hx]
    exact ih fun c hc => hall c (by simp [hc])

theorem headNotDigit_spec {rest : List Char} (h : headNotDigit rest = true) :
    ∀ c, rest.head? = some c → c.isDigit = false := by
  intro c hc
  match rest, hc with
  | r :: rs, hc =>
    simp only [List.head?, Option.some.injEq] at hc
    subst hc
    simpa [headNotDigit] using h

theorem parseNatChars_natChars (n : Nat) (rest : List Char)
    (h : headNotDigit rest = true) :
    parseNatChars (natChars n ++ rest) = some (n, rest) := by
  have htake := takeWhile_append_not Char.isDigit (natChars n) rest
    (natChars_digits n) (headNotDigit_spec h)
  have hdrop := dropWhile_append_not Char.isDigit (natChars n) rest
    (natChars_digits n) (headNotDigit_spec h)
  rw [parseNatChars]
  simp only [htake, hdrop]
  rw [if_neg (by simpa [List.isEmpty_iff] using natChars_ne_nil n)]
  rw [digitsVal, natChars_readBack]

theorem natChars_head (n : Nat) :
    ∃ c cs, natChars n = c :: cs ∧ c.isDigit = true := by
  match h : natChars n with
  | [] => exact absurd h (natChars_ne_nil n)
  | c :: cs =>
    exact ⟨c, cs, rfl, natChars_digits n c (by rw [h]; simp)⟩

theorem hexVal_digitChar {d : Nat} (h : d < 16) : hexVal (Nat.digitChar d) = some d := by
  interval_cases d <;> decide

theorem parseStrBody_escape (cs rest : List Char) :
    parseStrBody (escapeList cs ++ '"' :: rest) = some (cs, rest) := by
  induction cs with
  | nil =>
    rw [escapeList, List.nil_append, parseStrBody.eq_def]
    simp
  | cons c cs ih =>
    rw [escapeList, List.append_assoc]
    by_cases h1 : c = '"'
    · subst h1
      rw [show escapeChar '"' = ['\\', '"'] from by decide]
      simp only [List.cons_append, List.nil_append]
      rw [parseStrBody.eq_def]
      simp [ih]
    by_cases h2 : c = '\\'
    · subst h2
      rw [show escapeChar '\\' = ['\\', '\\'] from by decide]
      simp only [List.cons_append, List.nil_append]
      rw [parseStrBody.eq_def]
      simp [ih]
    by_cases h3 : c = '\n'
    · subst h3
      rw [show escapeChar '\n' = ['\\', 'n'] from by decide]
      simp only [List.cons_append, List.nil_append]
      rw [parseStrBody.eq_def]
      simp [ih]
    by_cases h4 : c = '\r'
    · subst h4
      rw [show escapeChar '\r' = ['\\', 'r'] from by decide]
      simp only [List.cons_append, List.nil_append]
      rw [parseStrBody.eq_def]
      simp [ih]
    by_cases h5 : c = '\t'
    · subst h5
      rw [show escapeChar '\t' = ['\\', 't'] from by decide]
      simp only [List.cons_append, List.nil_append]
      rw [parseStrBody.eq_def]
      simp [ih]
    by_cases h6 : c = '\x08'
    · subst h6
      rw [show escapeChar '\x08' = ['\\', 'b'] from by decide]
      simp only [List.cons_append, List.nil_append]
      rw [parseStrBody.eq_def]
      simp [ih]
    by_cases h7 : c = '\x0c'
    · subst h7
      rw [show escapeChar '\x0c' = ['\\', 'f'] from by decide]
      simp only [List.cons_append, List.nil_append]
      rw [parseStrBody.eq_def]
      simp [ih]
    by_cases h8 : c.toNat < 32
    · rw [escapeChar, if_neg h1, if_neg h2, if_neg h3, if_neg h4, if_neg h5, if_neg h6,
        if_neg h7, if_pos h8]
      have hdiv : c.toNat / 16 < 16 := by omega
      have hmod : c.toNat % 16 < 16 := by omega
      have h0 : hexVal '0' = some 0 := by decide
      have hcode : 4096 * 0 + 256 * 0 + 16 * (c.toNat / 16) + c.toNat % 16 = c.toNat := by
        omega
      have hvalid : (c.toNat).isValidChar := Or.inl (by omega)
      simp only [List.cons_append, List.nil_append]
      rw [parseStrBody.eq_def]
      simp [h0, hexVal_digitChar hdiv, hexVal_digitChar hmod, hcode, hvalid,
        Char.ofNat_toNat, ih]
      rw [show 16 * (c.toNat / 16) + c.toNat % 16 = c.toNat from by omega]
      exact ⟨hvalid, Char.ofNat_toNat c⟩
    · rw [escapeChar, if_neg h1, if_neg h2, if_neg h3, if_neg h4, if_neg h5, if_neg h6,
        if_neg h7, if_neg h8]
      simp only [List.cons_append, List.nil_append]
      rw [parseStrBody.eq_def]
      simp [h1, h2, h8, ih]

theorem printVal_cons (v : Json) (d : Nat) :
    ∃ c cs, printVal v d = c :: cs ∧ isWsChar c = false ∧ c ≠ ']' ∧ c ≠ '\x7d' := by
  cases v with
  | null => exact ⟨'n', _, rfl, by decide, by decide, by decide⟩
  | bool b =>
    cases b
    · exact ⟨'f', _, rfl, by decide, by decide, by decide⟩
    · exact ⟨'t', _, rfl, by decide, by decide, by decide⟩
  | num n =>
    by_cases hn : n < 0
    · exact ⟨'-', _, by rw [printVal, intChars, if_pos hn], by decide, by decide, by decide⟩
    · obtain ⟨c, cs0, heq, hdig⟩ := natChars_head n.toNat
      exact ⟨c, cs0, by rw [printVal, intChars, if_neg hn, heq], digit_not_ws hdig,
        digit_ne hdig ']' (by decide), digit_ne hdig '\x7d' (by decide)⟩
  | str s => exact ⟨'"', _, rfl, by decide, by decide, by decide⟩
  | arr items =>
    cases items
    · exact ⟨'[', _, rfl, by decide, by decide, by decide⟩
    · exact ⟨'[', _, rfl, by decide, by decide, by decide⟩
  | obj fields =>
    cases fields
    · exact ⟨'\x7b', _, rfl, by decide, by decide, by decide⟩
    · exact ⟨'\x7b', _, rfl, by decide, by decide, by decide⟩

theorem skipWs_printVal_append (v : Json) (d : Nat) (X : List Char) :
    skipWs (printVal v d ++ X) = printVal v d ++ X := by
  obtain ⟨c, cs, heq, hws, _, _⟩ := printVal_cons v d
  rw [heq, List.cons_append, skipWs_not_ws hws]

theorem printVal_head_ne_rbracket (v : Json) (d : Nat) (X : List Char) :
    ¬((printVal v d ++ X).head? = some ']') := by
  obtain ⟨c, cs, heq, _, hc, _⟩ := printVal_cons v d
  rw [heq]
  simpa using hc

theorem printVal_head_ne_rbrace (v : Json) (d : Nat) (X : List Char) :
    ¬((printVal v d ++ X).head? = some '\x7d') := by
  obtain ⟨c, cs, heq, _, _, hc⟩ := printVal_cons v d
  rw [heq]
  simpa using hc

mutual

theorem fuelVal_le_len : ∀ (v : Json) (d : Nat), fuelVal v ≤ (printVal v d).length
  | .null, d => by simp [fuelVal, printVal]
  | .bool true, d => by simp [fuelVal, printVal]
  | .bool false, d => by simp [fuelVal, printVal]
  | .num n, d => by
    obtain ⟨c, cs0, heq, _⟩ := natChars_head n.toNat
    simp only [fuelVal, printVal, intChars]
    split
    · simp
    · rw [heq]
      simp
  | .str s, d => by simp [fuelVal, printVal, quoteChars]
  | .arr [], d => by simp [fuelVal, fuelItems, printVal]
  | .arr (v :: vs), d => by
    have h1 := fuelVal_le_len v (d + 1)
    have h2 := fuelItems_le_len vs (d + 1)
    simp only [fuelVal, fuelItems, printVal, List.length_append, List.length_cons]
    omega
  | .obj [], d => by simp [fuelVal, fuelMembers, printVal]
  | .obj ((k, v) :: ms), d => by
    have h1 := fuelVal_le_len v (d + 1)
    have h2 := fuelMembers_le_len ms (d + 1)
    simp only [fuelVal, fuelMembers, printVal, printMember, quoteChars,
      List.length_append, List.length_cons]
    omega

theorem fuelItems_le_len : ∀ (vs : List Json) (d : Nat),
    fuelItems vs ≤ (printItems vs d).length + 1
  | [], d => by simp [fuelItems, printItems]
  | v :: vs, d => by
    have h1 := fuelVal_le_len v d
    have h2 := fuelItems_le_len vs d
    simp only [fuelItems, printItems, List.length_append, List.length_cons]
    omega

theorem fuelMembers_le_len : ∀ (ms : List (String × Json)) (d : Nat),
    fuelMembers ms ≤ (printMembers ms d).length + 1
  | [], d => by simp [fuelMembers, printMembers]
  | (k, v) :: ms, d => by
    have h1 := fuelVal_le_len v d
    have h2 := fuelMembers_le_len ms d
    simp only [fuelMembers, printMembers, printMember, quoteChars,
      List.length_append, List.length_cons]
    omega

end

theorem stringMk_data (s : String) : String.mk s.data = s := by
  cases s
  rfl

theorem fuelVal_pos (v : Json) : 1 ≤ fuelVal v := by
  cases v <;> simp [fuelVal]

theorem allWs_nl_indent (d : Nat) : allWs ('\n' :: indentChars d) = true := by
  simp only [allWs, List.all_cons, Bool.and_eq_true]
  exact ⟨rfl, allWs_indent d⟩

theorem numOk_printItems (v : Json) (vs : List Json) (d : Nat) (tail : List Char) :
    numOk v (printItems vs d ++ '\n' :: tail) = true := by
  cases v <;> try rfl
  cases vs <;> simp [numOk, printItems, headNotDigit]

theorem numOk_printMembers (w : Json) (ms : List (String × Json)) (d : Nat)
    (tail : List Char) :
    numOk w (printMembers ms d ++ '\n' :: tail) = true := by
  cases w <;> try rfl
  cases ms <;> simp [numOk, printMembers, headNotDigit]

theorem printMember_append (k : String) (w : Json) (d : Nat) (X : List Char) :
    printMember (k, w) d ++ X = quoteChars k ++ ':' :: ' ' :: (printVal w d ++ X) := by
  simp [printMember, List.append_assoc]

theorem quoteChars_append (k : String) (Y : List Char) :
    quoteChars k ++ Y = '"' :: (escapeList k.data ++ '"' :: Y) := by
  simp [quoteChars]

theorem skipWs_quote_append (k : String) (Y : List Char) :
    skipWs (quoteChars k ++ Y) = quoteChars k ++ Y := by
  rw [quoteChars, List.cons_append, skipWs_not_ws (by decide)]

theorem quote_head_ne_rbrace (k : String) (Y : List Char) :
    ¬((quoteChars k ++ Y).head? = some '\x7d') := by
  rw [quoteChars_append]
  simp

theorem parseVal_digit (fuel : Nat) {c : Char} (hdig : c.isDigit = true) (cs : List Char) :
    parseVal (fuel + 1) (c :: cs) =
      (parseNatChars (c :: cs)).map (fun p => (Json.num (p.1 : Int), p.2)) := by
  rw [parseVal, skipWs_not_ws (digit_not_ws hdig)]
  simp only []
  rw [if_neg (digit_ne hdig 'n' (by decide)), if_neg (digit_ne hdig 't' (by decide)),
    if_neg (digit_ne hdig 'f' (by decide)), if_neg (digit_ne hdig '"' (by decide)),
    if_neg (digit_ne hdig '[' (by decide)), if_neg (digit_ne hdig '\x7b' (by decide)),
    if_neg (digit_ne hdig '-' (by decide)), if_pos hdig]

theorem parse_print (fuel : Nat) :
    (∀ v d pre rest, allWs pre = true → fuelVal v < fuel → numOk v rest = true →
      parseVal fuel (pre ++ (printVal v d ++ rest)) = some (v, rest)) ∧
    (∀ vs v d pre rest, allWs pre = true → fuelItems (v :: vs) < fuel →
      parseItems1 fuel (pre ++ (printVal v (d + 1) ++ (printItems vs (d + 1) ++
        '\n' :: (indentChars d ++ ']' :: rest)))) = some (v :: vs, rest)) ∧
    (∀ ms k w d pre rest, allWs pre = true → fuelMembers ((k, w) :: ms) < fuel →
      parseMembers1 fuel (pre ++ (quoteChars k ++ (':' :: ' ' :: (printVal w (d + 1) ++
        (printMembers ms (d + 1) ++ '\n' :: (indentChars d ++ '\x7d' :: rest)))))) =
        some ((k, w) :: ms, rest)) := by
  induction fuel with
  | zero =>
    exact ⟨fun v d pre rest hpre hf hnum => absurd hf (by omega),
      fun vs v d pre rest hpre hf => absurd hf (by omega),
      fun ms k w d pre rest hpre hf => absurd hf (by omega)⟩
  | succ fuel ih =>
    obtain ⟨ihV, ihI, ihM⟩ := ih
    refine ⟨?_, ?_, ?_⟩
    · intro v d pre rest hpre hf hnum
      rw [parseVal, skipWs_append_ws pre _ hpre]
      cases v with
      | null =>
        rw [show printVal Json.null d = 'n' :: ['u', 'l', 'l'] from rfl,
          List.cons_append, skipWs_not_ws (by decide)]
        simp [matchLit]
      | bool b =>
        cases b
        · rw [show printVal (Json.bool false) d = 'f' :: ['a', 'l', 's', 'e'] from rfl,
            List.cons_append, skipWs_not_ws (by decide)]
          simp [matchLit]
        · rw [show printVal (Json.bool true) d = 't' :: ['r', 'u', 'e'] from rfl,
            List.cons_append, skipWs_not_ws (by decide)]
          simp [matchLit]
      | num n =>
        have hnd : headNotDigit rest = true := by simpa [numOk] using hnum
        by_cases hn : n < 0
        · rw [show printVal (Json.num n) d = intChars n from rfl, intChars, if_pos hn,
            List.cons_append, skipWs_not_ws (by decide)]
          have hp := parseNatChars_natChars n.natAbs rest hnd
          have habs : ((n.natAbs : Int)) = -n := Int.ofNat_natAbs_of_nonpos (by omega)
          simp [hp, habs]
        · rw [show printVal (Json.num n) d = intChars n from rfl, intChars, if_neg hn]
          obtain ⟨c, cs0, heq, hdig⟩ := natChars_head n.toNat
          rw [heq, List.cons_append, skipWs_not_ws (digit_not_ws hdig)]
          have hre : c :: (cs0 ++ rest) = natChars n.toNat ++ rest := by
            rw [heq, List.cons_append]
          simp only []
          rw [if_neg (digit_ne hdig 'n' (by decide)), if_neg (digit_ne hdig 't' (by decide)),
            if_neg (digit_ne hdig 'f' (by decide)), if_neg (digit_ne hdig '"' (by decide)),
            if_neg (digit_ne hdig '[' (by decide)), if_neg (digit_ne hdig '\x7b' (by decide)),
            if_neg (digit_ne hdig '-' (by decide)), if_pos hdig, hre,
            parseNatChars_natChars n.toNat rest hnd]
          simp
          omega
      | str s =>
        rw [show printVal (Json.str s) d = '"' :: (escapeList s.data ++ ['"']) from rfl,
          List.cons_append, skipWs_not_ws (by decide)]
        have hps := parseStrBody_escape s.data rest
        simp [List.append_assoc, hps, stringMk_data]
      | arr items =>
        cases items with
        | nil =>
          rw [show printVal (Json.arr []) d = ['[', ']'] from rfl,
            List.cons_append, skipWs_not_ws (by decide)]
          simp [skipWs, isWsChar]
        | cons v0 vs =>
          rw [show printVal (Json.arr (v0 :: vs)) d =
            '[' :: '\n' :: (indentChars (d + 1) ++ printVal v0 (d + 1) ++ printItems vs (d + 1)
              ++ '\n' :: (indentChars d ++ [']'])) from rfl]
          simp only [List.cons_append, List.append_assoc, List.singleton_append,
            List.nil_append]
          rw [skipWs_not_ws (by decide)]
          simp only []
          simp only [if_true, if_false]
          rw [skipWs_ws_cons (by decide), skipWs_indent, skipWs_printVal_append,
            if_neg (printVal_head_ne_rbracket v0 (d + 1) _)]
          have hfI : fuelItems (v0 :: vs) < fuel := by
            have he : fuelVal (Json.arr (v0 :: vs)) = fuelItems (v0 :: vs) + 1 := rfl
            omega
          have hI := ihI vs v0 d [] rest rfl hfI
          rw [List.nil_append] at hI
          rw [hI]
          rfl
      | obj fields =>
        cases fields with
        | nil =>
          rw [show printVal (Json.obj []) d = ['\x7b', '\x7d'] from rfl,
            List.cons_append, skipWs_not_ws (by decide)]
          simp [skipWs, isWsChar]
        | cons m ms =>
          obtain ⟨k, w⟩ := m
          rw [show printVal (Json.obj ((k, w) :: ms)) d =
            '\x7b' :: '\n' :: (indentChars (d + 1) ++ printMember (k, w) (d + 1)
              ++ printMembers ms (d + 1) ++ '\n' :: (indentChars d ++ ['\x7d'])) from rfl]
          simp only [List.cons_append, List.append_assoc, List.singleton_append,
            List.nil_append]
          rw [printMember_append, skipWs_not_ws (by decide)]
          simp only []
          simp only [if_true, if_false]
          rw [skipWs_ws_cons (by decide), skipWs_indent,
            skipWs_quote_append, if_neg (quote_head_ne_rbrace k _)]
          have hfM : fuelMembers ((k, w) :: ms) < fuel := by
            have he : fuelVal (Json.obj ((k, w) :: ms)) = fuelMembers ((k, w) :: ms) + 1 := rfl
            omega
          have hM := ihM ms k w d [] rest rfl hfM
          rw [List.nil_append] at hM
          rw [hM]
          rfl
    · intro vs v d pre rest hpre hfI
      have hfV : fuelVal v < fuel := by
        have he : fuelItems (v :: vs) = fuelVal v + fuelItems vs + 1 := rfl
        omega
      rw [parseItems1,
        ihV v (d + 1) pre _ hpre hfV (numOk_printItems v vs (d + 1) _)]
      simp only []
      cases vs with
      | nil =>
        rw [show printItems ([] : List Json) (d + 1) ++
            '\n' :: (indentChars d ++ ']' :: rest) =
          '\n' :: (indentChars d ++ ']' :: rest) from by simp [printItems]]
        rw [skipWs_ws_cons (by decide), skipWs_indent, skipWs_not_ws (by decide)]
        simp
      | cons v1 vs1 =>
        rw [show printItems (v1 :: vs1) (d + 1) ++ '\n' :: (indentChars d ++ ']' :: rest) =
          ',' :: ('\n' :: (indentChars (d + 1) ++ (printVal v1 (d + 1) ++
            (printItems vs1 (d + 1) ++ '\n' :: (indentChars d ++ ']' :: rest)))))
          from by simp [printItems, List.append_assoc]]
        rw [skipWs_not_ws (by decide)]
        simp only [List.head?_cons, List.tail_cons]
        rw [if_true]
        have hfI1 : fuelItems (v1 :: vs1) < fuel := by
          have he : fuelItems (v :: v1 :: vs1) =
            fuelVal v + (fuelVal v1 + fuelItems vs1 + 1) + 1 := rfl
          have hp := fuelVal_pos v
          have he2 : fuelItems (v1 :: vs1) = fuelVal v1 + fuelItems vs1 + 1 := rfl
          omega
        have hI := ihI vs1 v1 d ('\n' :: indentChars (d + 1)) rest
          (allWs_nl_indent (d + 1)) hfI1
        rw [List.cons_append] at hI
        rw [hI]
    · intro ms k w d pre rest hpre hfM
      have hfV : fuelVal w < fuel := by
        have he : fuelMembers ((k, w) :: ms) = fuelVal w + fuelMembers ms + 1 := rfl
        omega
      rw [parseMembers1, skipWs_append_ws pre _ hpre, quoteChars_append,
        skipWs_not_ws (by decide)]
      simp only []
      rw [if_true, parseStrBody_escape k.data _]
      simp only []
      rw [skipWs_not_ws (by decide)]
      simp only [List.head?_cons, List.tail_cons]
      rw [if_true]
      rw [show ' ' :: (printVal w (d + 1) ++ (printMembers ms (d + 1) ++
          '\n' :: (indentChars d ++ '\x7d' :: rest))) =
        [' '] ++ (printVal w (d + 1) ++ (printMembers ms (d + 1) ++
          '\n' :: (indentChars d ++ '\x7d' :: rest))) from rfl]
      rw [ihV w (d + 1) [' '] _ rfl hfV (numOk_printMembers w ms (d + 1) _)]
      simp only []
      cases ms with
      | nil =>
        rw [show printMembers ([] : List (String × Json)) (d + 1) ++
            '\n' :: (indentChars d ++ '\x7d' :: rest) =
          '\n' :: (indentChars d ++ '\x7d' :: rest) from by simp [printMembers]]
        rw [skipWs_ws_cons (by decide), skipWs_indent, skipWs_not_ws (by decide)]
        simp [stringMk_data]
      | cons m1 ms1 =>
        obtain ⟨k1, w1⟩ := m1
        rw [show printMembers ((k1, w1) :: ms1) (d + 1) ++
            '\n' :: (indentChars d ++ '\x7d' :: rest) =
          ',' :: ('\n' :: (indentChars (d + 1) ++ (quoteChars k1 ++ (':' :: ' ' ::
            (printVal w1 (d + 1) ++ (printMembers ms1 (d + 1) ++
              '\n' :: (indentChars d ++ '\x7d' :: rest)))))))
          from by simp [printMembers, printMember, List.append_assoc]]
        rw [skipWs_not_ws (by decide)]
        simp only [List.head?_cons, List.tail_cons]
        rw [if_true]
        have hfM1 : fuelMembers ((k1, w1) :: ms1) < fuel := by
          have he : fuelMembers ((k, w) :: (k1, w1) :: ms1) =
            fuelVal w + (fuelVal w1 + fuelMembers ms1 + 1) + 1 := rfl
          have hp := fuelVal_pos w
          have he2 : fuelMembers ((k1, w1) :: ms1) = fuelVal w1 + fuelMembers ms1 + 1 := rfl
          omega
        have hM := ihM ms1 k1 w1 d ('\n' :: indentChars (d + 1)) rest
          (allWs_nl_indent (d + 1)) hfM1
        rw [List.cons_append] at hM
        rw [hM]

/-! ## Claim theorems: input coercion -/

/-- C6: number coercion.  A native number passes through both
`optionalNumber` and `requiredNumber` unchanged; a string that
`Number()` parses yields the parsed number; the empty string yields
`undefined` under `optionalNumber` and `0` under `requiredNumber`; a
string `Number()` rejects fails with `Invalid number: "<literal>"`,
naming the offending literal. -/
theorem number_coercion_spec :
    (∀ n : Int, optionalNumber (.num n) = .ok (.num n) ∧ requiredNumber (.num n) = .ok (.num n)) ∧
    (∀ s n, s ≠ "" → jsNumberOfString s = some n → optionalNumber (.str s) = .ok (.num n)) ∧
    (∀ s n, jsNumberOfString s = some n → requiredNumber (.str s) = .ok (.num n)) ∧
    optionalNumber (.str "") = .ok .undef ∧
    requiredNumber (.str "") = .ok (.num 0) ∧
    (∀ s, jsNumberOfString s = none →
      optionalNumber (.str s) = .thrown ("Invalid number: \"" ++ s ++ "\"") ∧
      requiredNumber (.str s) = .thrown ("Invalid number: \"" ++ s ++ "\"")) := by
  refine ⟨fun n => ⟨rfl, rfl⟩, ?_, ?_, rfl, rfl, ?_⟩
  · intro s n hs hn
    simp [optionalNumber, zOptional, zUnion2, zNumber, zStringTransform,
      optionalNumberTransform, hs, hn]
  · intro s n hn
    simp [requiredNumber, zUnion2, zNumber, zStringTransform, requiredNumberTransform, hn]
  · intro s hn
    have hs : s ≠ "" := by
      intro e
      rw [e] at hn
      exact absurd hn (by decide)
    constructor
    · simp [optionalNumber, zOptional, zUnion2, zNumber, zStringTransform,
        optionalNumberTransform, hs, hn]
    · simp [requiredNumber, zUnion2, zNumber, zStringTransform, requiredNumberTransform, hn]

/-- C6 witness: the spec scenario `"123" → 123`, instantiating the
universally quantified part of `number_coercion_spec`. -/
theorem number_coercion_spec_witness :
    optionalNumber (.str "123") = .ok (.num 123) :=
  number_coercion_spec.2.1 "123" 123 (by decide) (by decide)

/-- C7: boolean coercion.  A native boolean passes through both
`optionalBoolean` and `requiredBoolean` unchanged; `"true"`/`"1"` yield
`true` and `"false"`/`"0"` yield `false`; every other nonempty string
fails with `Invalid boolean: "<literal>"`; the empty string yields
`undefined` under `optionalBoolean` and is rejected with an error by
`requiredBoolean`. -/
theorem boolean_coercion_spec :
    (∀ b, optionalBoolean (.bool b) = .ok (.bool b) ∧ requiredBoolean (.bool b) = .ok (.bool b)) ∧
    (optionalBoolean (.str "true") = .ok (.bool true) ∧
     optionalBoolean (.str "1") = .ok (.bool true) ∧
     optionalBoolean (.str "false") = .ok (.bool false) ∧
     optionalBoolean (.str "0") = .ok (.bool false) ∧
     requiredBoolean (.str "true") = .ok (.bool true) ∧
     requiredBoolean (.str "1") = .ok (.bool true) ∧
     requiredBoolean (.str "false") = .ok (.bool false) ∧
     requiredBoolean (.str "0") = .ok (.bool false)) ∧
    (∀ s, s ≠ "" → s ≠ "true" → s ≠ "1" → s ≠ "false" → s ≠ "0" →
      optionalBoolean (.str s) = .thrown ("Invalid boolean: \"" ++ s ++ "\"") ∧
      requiredBoolean (.str s) = .thrown ("Invalid boolean: \"" ++ s ++ "\"")) ∧
    optionalBoolean (.str "") = .ok .undef ∧
    requiredBoolean (.str "") = .thrown ("Invalid boolean: \"\"") := by
  refine ⟨fun b => ⟨rfl, rfl⟩, ⟨rfl, rfl, rfl, rfl, rfl, rfl, rfl, rfl⟩, ?_, rfl, rfl⟩
  intro s h0 h1 h2 h3 h4
  constructor
  · simp [optionalBoolean, zOptional, zUnion2, zBoolean, zStringTransform,
      optionalBooleanTransform, h0, h1, h2, h3, h4]
  · simp [requiredBoolean, zUnion2, zBoolean, zStringTransform,
      requiredBooleanTransform, h1, h2, h3, h4]

/-- C7 witness: `"yes"` is rejected by both boolean schemas, naming the
literal, instantiating the universally quantified part of
`boolean_coercion_spec`. -/
theorem boolean_coercion_spec_witness :
    optionalBoolean (.str "yes") = .thrown ("Invalid boolean: \"yes\"") ∧
    requiredBoolean (.str "yes") = .thrown ("Invalid boolean: \"yes\"") :=
  boolean_coercion_spec.2.2.1 "yes" (by decide) (by decide) (by decide) (by decide) (by decide)

/-- C8: coercion is idempotent.  Each of the four schemas returns an
already-typed value unchanged, and whenever a string coerces
successfully, coercing the resulting value again yields the same
value. -/
theorem coercion_idempotent :
    (∀ n : Int, optionalNumber (.num n) = .ok (.num n)) ∧
    (∀ n : Int, requiredNumber (.num n) = .ok (.num n)) ∧
    (∀ b, optionalBoolean (.bool b) = .ok (.bool b)) ∧
    (∀ b, requiredBoolean (.bool b) = .ok (.bool b)) ∧
    (∀ s v, optionalNumber (.str s) = .ok v → optionalNumber v = .ok v) ∧
    (∀ s v, requiredNumber (.str s) = .ok v → requiredNumber v = .ok v) ∧
    (∀ s v, optionalBoolean (.str s) = .ok v → optionalBoolean v = .ok v) ∧
    (∀ s v, requiredBoolean (.str s) = .ok v → requiredBoolean v = .ok v) := by
  refine ⟨fun n => rfl, fun n => rfl, fun b => rfl, fun b => rfl, ?_, ?_, ?_, ?_⟩
  · intro s v h
    by_cases hs : s = ""
    · subst hs
      simp [optionalNumber, zOptional, zUnion2, zNumber, zStringTransform,
        optionalNumberTransform] at h
      subst h
      rfl
    · rcases hn : jsNumberOfString s with _ | n <;>
        simp [optionalNumber, zOptional, zUnion2, zNumber, zStringTransform,
          optionalNumberTransform, hs, hn] at h
      subst h
      rfl
  · intro s v h
    rcases hn : jsNumberOfString s with _ | n <;>
      simp [requiredNumber, zUnion2, zNumber, zStringTransform,
        requiredNumberTransform, hn] at h
    subst h
    rfl
  · intro s v h
    by_cases h0 : s = ""
    · subst h0
      simp [optionalBoolean, zOptional, zUnion2, zBoolean, zStringTransform,
        optionalBooleanTransform] at h
      subst h
      rfl
    by_cases h1 : s = "true" ∨ s = "1"
    · have : optionalBoolean (.str s) = .ok (.bool true) := by
        rcases h1 with h1 | h1 <;> subst h1 <;> rfl
      rw [this] at h
      cases h
      rfl
    by_cases h2 : s = "false" ∨ s = "0"
    · have : optionalBoolean (.str s) = .ok (.bool false) := by
        rcases h2 with h2 | h2 <;> subst h2 <;> rfl
      rw [this] at h
      cases h
      rfl
    · push_neg at h1 h2
      simp [optionalBoolean, zOptional, zUnion2, zBoolean, zStringTransform,
        optionalBooleanTransform, h0, h1.1, h1.2, h2.1, h2.2] at h
  · intro s v h
    by_cases h1 : s = "true" ∨ s = "1"
    · have : requiredBoolean (.str s) = .ok (.bool true) := by
        rcases h1 with h1 | h1 <;> subst h1 <;> rfl
      rw [this] at h
      cases h
      rfl
    by_cases h2 : s = "false" ∨ s = "0"
    · have : requiredBoolean (.str s) = .ok (.bool false) := by
        rcases h2 with h2 | h2 <;> subst h2 <;> rfl
      rw [this] at h
      cases h
      rfl
    · push_neg at h1 h2
      simp [requiredBoolean, zUnion2, zBoolean, zStringTransform,
        requiredBooleanTransform, h1.1, h1.2, h2.1, h2.2] at h

/-- C8 witness: coercing `"123"` once and then coercing the result
again, instantiating `coercion_idempotent`. -/
theorem coercion_idempotent_witness :
    optionalNumber (.num 123) = .ok (.num 123) :=
  coercion_idempotent.2.2.2.2.1 "123" (.num 123) rfl

/-- C10: only the exact empty string is special-cased.  Every
whitespace-only string is converted by `Number()` to `0`, so both
`optionalNumber` and `requiredNumber` succeed with `0` — the input is
neither treated as absent nor rejected. -/
theorem whitespace_number_strings (s : String) (hne : s ≠ "")
    (hws : s.data.all jsWs = true) :
    optionalNumber (.str s) = .ok (.num 0) ∧ requiredNumber (.str s) = .ok (.num 0) := by
  have hnum : jsNumberOfString s = some 0 := by
    have hdrop : s.data.dropWhile jsWs = [] := by
      rw [List.dropWhile_eq_nil_iff]
      intro x hx
      exact List.all_eq_true.mp hws x hx
    simp [jsNumberOfString, hdrop]
  constructor
  · simp [optionalNumber, zOptional, zUnion2, zNumber, zStringTransform,
      optionalNumberTransform, hne, hnum]
  · simp [requiredNumber, zUnion2, zNumber, zStringTransform, requiredNumberTransform, hnum]

/-- C10 witness: the single-space string, instantiating
`whitespace_number_strings`. -/
theorem whitespace_number_strings_witness :
    optionalNumber (.str " ") = .ok (.num 0) ∧ requiredNumber (.str " ") = .ok (.num 0) :=
  whitespace_number_strings " " (by decide) (by decide)

/-! ## Claim theorems: dispatcher -/

/-- C3: an unregistered tool name fails with `Tool <name> not found`;
neither input validation nor any execute function runs. -/
theorem tool_not_found (tools : List Tool) (name : String) (args : JsVal)
    (h : ∀ t ∈ tools, t.name ≠ name) :
    callTool tools name args =
      ⟨.failure ("Tool " ++ name ++ " not found"), false, false⟩ := by
  have hfind : toolsByName tools name = none := by
    rw [toolsByName, List.find?_eq_none]
    intro t ht
    simpa using h t ht
  rw [callTool, hfind]

/-- C3 witness: calling `no_such_tool` against a registry holding the
sample customer tools, via `tool_not_found`. -/
theorem tool_not_found_witness :
    callTool [sampleGetCustomer, sampleListCustomers] "no_such_tool" .undef =
      ⟨.failure ("Tool no_such_tool not found"), false, false⟩ :=
  tool_not_found [sampleGetCustomer, sampleListCustomers] "no_such_tool" .undef
    (by intro t ht; fin_cases ht <;> decide)

theorem jsonParse_stringify (v : Json) : jsonParse (stringify v) = some v := by
  rw [jsonParse]
  have hdata : (stringify v).data = printVal v 0 := rfl
  have hlen : (stringify v).length = (printVal v 0).length := rfl
  rw [hdata, hlen]
  have hfuel : fuelVal v < (printVal v 0).length + 1 := by
    have := fuelVal_le_len v 0
    omega
  have hmain := (parse_print ((printVal v 0).length + 1)).1 v 0 [] [] rfl hfuel
    (by cases v <;> rfl)
  rw [List.nil_append, List.append_nil] at hmain
  rw [hmain]
  rfl

/-- C5: successful tool executions.  When the dispatcher resolves the
tool, validation succeeds and `execute` completes with result `r`, the
response contains exactly one content block, of type `text`, whose text
is the pretty-printed JSON serialization of `r`; and parsing that text
back as JSON yields `r` again. -/
theorem tool_result_roundtrip (tools : List Tool) (name : String) (args : JsVal)
    (t : Tool) (v : JsVal) (r : Json)
    (hfind : toolsByName tools name = some t)
    (hparse : t.inputSchema (if jsFalsy args then JsVal.obj [] else args) = .ok v)
    (hexec : t.execute v = .ok r) :
    callTool tools name args = ⟨.success [⟨"text", stringify r⟩], true, true⟩ ∧
    jsonParse (stringify r) = some r := by
  constructor
  · simp only [callTool, hfind, hparse, hexec]
  · exact jsonParse_stringify r

/-- C5 witness: calling `get_customer` with `id: "7"` wraps the stubbed
customer response in one text block, and the serialized text parses
back to the same value, via `tool_result_roundtrip`. -/
theorem tool_result_roundtrip_witness :
    callTool [sampleGetCustomer] "get_customer" (.obj [("id", .str "7")]) =
      ⟨.success [⟨"text",
        stringify (.obj [("customer", .obj [("id", .num 7), ("name", .str "ACME")])])⟩],
        true, true⟩ ∧
    jsonParse (stringify (.obj [("customer", .obj [("id", .num 7), ("name", .str "ACME")])])) =
      some (.obj [("customer", .obj [("id", .num 7), ("name", .str "ACME")])]) :=
  tool_result_roundtrip [sampleGetCustomer] "get_customer" (.obj [("id", .str "7")])
    sampleGetCustomer (.obj [("id", .num 7)])
    (.obj [("customer", .obj [("id", .num 7), ("name", .str "ACME")])]) rfl rfl rfl

/-- C4 (amended): validation failures.  When the resolved tool's input
contract fails with a `ZodError`, the dispatcher throws
`Invalid input: ` followed by the comma-joined issue messages, and the
tool's execute function is not invoked.  The amendment: a coercion
failure (such as a non-numeric string for a number field) is a raw
exception thrown inside the schema's `.transform` callback; it is not a
`ZodError`, so the dispatcher rethrows it unchanged (e.g.
`Invalid number: "abc"`) — still without invoking execute. -/
theorem invalid_input_dispatch (tools : List Tool) (name : String) (args : JsVal)
    (t : Tool) (hfind : toolsByName tools name = some t) :
    (∀ msgs, t.inputSchema (if jsFalsy args then JsVal.obj [] else args) = .zodErr msgs →
      callTool tools name args =
        ⟨.failure ("Invalid input: " ++ String.intercalate ", " msgs), true, false⟩) ∧
    (∀ m, t.inputSchema (if jsFalsy args then JsVal.obj [] else args) = .thrown m →
      callTool tools name args = ⟨.failure m, true, false⟩) := by
  constructor
  · intro msgs hschema
    simp only [callTool, hfind, hschema]
  · intro m hschema
    simp only [callTool, hfind, hschema]

/-- C4 witness: a boolean passed for the `limit` field of
`list_customers` fails both union options, producing a `ZodError` whose
joined messages are reported behind `Invalid input: `, via
`invalid_input_dispatch`. -/
theorem invalid_input_dispatch_witness :
    callTool [sampleListCustomers] "list_customers" (.obj [("limit", .bool true)]) =
      ⟨.failure ("Invalid input: " ++ String.intercalate ", " ["Invalid input"]), true, false⟩ :=
  (invalid_input_dispatch [sampleListCustomers] "list_customers"
      (.obj [("limit", .bool true)]) sampleListCustomers rfl).1 ["Invalid input"] rfl

/-- C4 counterexample: the non-numeric string `"abc"` for the `limit`
field of `list_customers` — the coercion failure named by the claim —
makes the dispatcher fail with `Invalid number: "abc"`, a message that
does not begin with `Invalid input: `, refuting the claimed message
shape. -/
theorem coercion_failure_message_not_invalid_input :
    callTool [sampleListCustomers] "list_customers" (.obj [("limit", .str "abc")]) =
      ⟨.failure "Invalid number: \"abc\"", true, false⟩ ∧
    ("Invalid input: ".data.isPrefixOf "Invalid number: \"abc\"".data) = false :=
  ⟨rfl, by decide⟩

/-! ## Claim theorems: HTTP request handling -/


theorem corsOk_self : corsOk corsHeaders := fun _ hp => hp

theorem corsOk_append (e : List (String × String)) : corsOk (corsHeaders ++ e) :=
  fun _ hp => List.mem_append_left _ hp

theorem handlePost_cors (table : List String) (fresh : String) (sid : Option String)
    (body : Option Json) : corsOk ((handlePost table fresh sid body).1.headers) := by
  unfold handlePost
  rcases body with _ | pb
  · exact corsOk_append _
  · dsimp only
    split
    · exact corsOk_self
    · split
      · exact corsOk_append _
      · split
        · exact corsOk_append _
        · split
          · exact corsOk_self
          · exact corsOk_append _

theorem handleSessionBound_cors (table : List String) (sid : Option String) :
    corsOk ((handleSessionBound table sid).1.headers) := by
  unfold handleSessionBound
  rcases sid with _ | s
  · exact corsOk_append _
  · dsimp only
    split
    · exact corsOk_append _
    · split
      · exact corsOk_self
      · exact corsOk_append _

/-- C2 (amended): every response to a request that has a URL carries the
three permissive CORS headers — including the 404, 405, 400 and 500
error responses and the responses delegated to a session transport.
(The 400 answered when `req.url` is absent is written before the CORS
headers are set and is the exception.) -/
theorem cors_on_responses (table : List String) (freshSid : String) (req : HttpRequest)
    (path : String) (hurl : req.url = some path) :
    corsOk ((handleHttpRequest table freshSid req).1.headers) := by
  unfold handleHttpRequest
  rw [hurl]
  dsimp only
  split
  · exact corsOk_self
  · split
    · split
      · exact handlePost_cors table freshSid req.sessionId req.body
      · split
        · exact handleSessionBound_cors table req.sessionId
        · split
          · exact handleSessionBound_cors table req.sessionId
          · exact corsOk_append _
    · exact corsOk_append _

/-- C2 witness: a GET to an unknown path carries the CORS headers, via
`cors_on_responses`. -/
theorem cors_on_responses_witness :
    corsOk ((handleHttpRequest [] "fresh" ⟨some "/other", "GET", none, none⟩).1.headers) :=
  cors_on_responses [] "fresh" ⟨some "/other", "GET", none, none⟩ "/other" rfl

/-- C2 counterexample: the 400 `Bad Request` answered when `req.url` is
absent (`src/index.ts:106-110`) is written before the CORS headers are
set, so it carries none of them — refuting the claim that every error
response carries the permissive CORS headers. -/
theorem missing_url_response_lacks_cors :
    handleHttpRequest [] "fresh" ⟨none, "POST", none, none⟩ =
      (.direct 400 [ctText] "Bad Request", []) ∧
    ("Access-Control-Allow-Origin", "*") ∉ [ctText] := by
  exact ⟨rfl, by decide⟩

/-- C1 (amended): the POST branch structure on `/` and `/mcp`.  Under
the session-table invariant that stored ids are nonempty (they are
generated by `randomUUID()`) and for a request whose session-id header,
if present, is nonempty: a known session id is routed to its transport;
no session id plus an `initialize` method creates and stores a new
session; an unknown session id, or no session id with a non-`initialize`
method on a non-`null` body, is answered 400 with the no-session
envelope and the table is unchanged.  The amendment: when no session id
is present and the body parses to JSON `null`, the property access
`parsedBody.method` throws, so the catch block answers 500 with the
internal-error envelope instead of the 400 rejection. -/
theorem post_session_trichotomy (table : List String) (freshSid : String) (path : String)
    (sid : Option String) (body : Json) (hpath : path = "/" ∨ path = "/mcp")
    (hkeys : ∀ k ∈ table, k ≠ "") (hsid : sid ≠ some "") :
    (∀ s, sid = some s → s ∈ table →
      handleHttpRequest table freshSid ⟨some path, "POST", sid, some body⟩ =
        (.reuseSession s corsHeaders, table)) ∧
    (sid = none → bodyMethodIsInit body = true →
      handleHttpRequest table freshSid ⟨some path, "POST", sid, some body⟩ =
        (.newSession freshSid corsHeaders, freshSid :: table)) ∧
    (∀ s, sid = some s → s ∉ table →
      handleHttpRequest table freshSid ⟨some path, "POST", sid, some body⟩ =
        (.direct 400 (corsHeaders ++ [ctJson]) noSessionBody, table)) ∧
    (sid = none → body ≠ .null → bodyMethodIsInit body = false →
      handleHttpRequest table freshSid ⟨some path, "POST", sid, some body⟩ =
        (.direct 400 (corsHeaders ++ [ctJson]) noSessionBody, table)) ∧
    (sid = none → body = .null →
      handleHttpRequest table freshSid ⟨some path, "POST", sid, some body⟩ =
        (.direct 500 (corsHeaders ++ [ctJson]) internalErrorBody, table)) := by
  have hroute : ∀ r : HandlerAction × List String,
      handlePost table freshSid sid (some body) = r →
      handleHttpRequest table freshSid ⟨some path, "POST", sid, some body⟩ = r := by
    intro r hr
    unfold handleHttpRequest
    rcases hpath with h | h <;> subst h <;> simpa using hr
  refine ⟨?_, ?_, ?_, ?_, ?_⟩
  · intro s hs hmem
    subst hs
    apply hroute
    unfold handlePost
    have hne : s ≠ "" := hkeys s hmem
    simp [hne, hmem]
  · intro hs hinit
    subst hs
    apply hroute
    unfold handlePost
    match body, hinit with
    | .obj fields, hinit => simp [hinit]
  · intro s hs hmem
    subst hs
    apply hroute
    unfold handlePost
    have hne : s ≠ "" := fun e => hsid (by rw [e])
    simp [hne, hmem]
  · intro hs hnn hinit
    subst hs
    apply hroute
    unfold handlePost
    match body, hnn with
    | .bool b, _ => simp [bodyMethodIsInit]
    | .num n, _ => simp [bodyMethodIsInit]
    | .str s, _ => simp [bodyMethodIsInit]
    | .arr xs, _ => simp [bodyMethodIsInit]
    | .obj fields, _ => simp [hinit]
  · intro hs hnull
    subst hs
    subst hnull
    apply hroute
    unfold handlePost
    simp

/-- C1 witness: a POST carrying a known session id is routed to that
session, via `post_session_trichotomy`. -/
theorem post_session_trichotomy_witness :
    handleHttpRequest ["abc123"] "fresh"
        ⟨some "/", "POST", some "abc123", some (.obj [("method", .str "tools/list")])⟩ =
      (.reuseSession "abc123" corsHeaders, ["abc123"]) :=
  (post_session_trichotomy ["abc123"] "fresh" "/" (some "abc123")
      (.obj [("method", .str "tools/list")]) (Or.inl rfl)
      (by intro k hk; fin_cases hk; decide) (by decide)).1
    "abc123" rfl (by decide)

/-- C1 counterexample: a POST to `/` with no session-id header and the
JSON-parsable body `null` takes none of the claim's three branches: the
code answers 500 with the internal-error envelope (the access
`parsedBody.method` throws on `null`), not the claimed 400 no-session
envelope. -/
theorem post_null_body_is_internal_error :
    handleHttpRequest [] "fresh" ⟨some "/", "POST", none, some .null⟩ =
      (.direct 500 (corsHeaders ++ [ctJson]) internalErrorBody, []) ∧
    internalErrorBody ≠ noSessionBody ∧ (500 : Nat) ≠ 400 :=
  ⟨rfl, by decide, by decide⟩

/-- C9 (amended): every request that has a URL, whose path is neither
`/` nor `/mcp`, and whose method is not `OPTIONS` is answered 404
`Not Found`, with no session-table operation and no dispatch.  (The
amendment excludes `OPTIONS`: the CORS-preflight short-circuit runs
before the path check, so `OPTIONS` to any path is answered 200.) -/
theorem unknown_path_not_found (table : List String) (freshSid : String) (req : HttpRequest)
    (path : String) (hurl : req.url = some path) (h1 : path ≠ "/") (h2 : path ≠ "/mcp")
    (hm : req.method ≠ "OPTIONS") :
    handleHttpRequest table freshSid req =
      (.direct 404 (corsHeaders ++ [ctText]) "Not Found", table) := by
  unfold handleHttpRequest
  rw [hurl]
  simp [hm, h1, h2]

/-- C9 witness: a GET to `/other` is answered 404, via
`unknown_path_not_found`. -/
theorem unknown_path_not_found_witness :
    handleHttpRequest ["abc123"] "fresh" ⟨some "/other", "GET", none, none⟩ =
      (.direct 404 (corsHeaders ++ [ctText]) "Not Found", ["abc123"]) :=
  unknown_path_not_found ["abc123"] "fresh" ⟨some "/other", "GET", none, none⟩ "/other"
    rfl (by decide) (by decide) (by decide)

/-- C9 counterexample: an `OPTIONS` request to `/foo` — a path that is
neither `/` nor `/mcp` — is answered 200 by the CORS-preflight
short-circuit, not the claimed 404. -/
theorem options_unknown_path_is_200 :
    handleHttpRequest [] "fresh" ⟨some "/foo", "OPTIONS", none, none⟩ =
      (.direct 200 corsHeaders "", []) ∧ (200 : Nat) ≠ 404 :=
  ⟨rfl, by decide⟩

end MiteMcp
